import Mathlib

/-!
Verification of the snap-seeds reconciliation script (`scripts/snap_seeds.py`).

The script reconciles the snaps declared in Ubuntu seed manifests against the
snap list embedded in per-release model-assertion JSON documents.  This file
gives a shallow embedding of that script in Lean: Python strings are Lean
`String`s (whose `data` field is the list of characters), Python `None`-able
strings are `Option String`, JSON model documents are structured records, and
every external boundary (HTTP seed fetch, snap-store metadata lookup,
`distro-info` subprocess, filesystem) is passed in as an explicit function
argument or as an explicit list of performed writes.  Code that can raise a
Python exception is embedded in `Except String`, the error string naming the
exception.  Python `set`s of `SeededSnap` (whose `__eq__`/`__hash__` are
defined on the rendered seed string) are embedded as insertion-ordered lists
that are deduplicated with that same equality; Python's set iteration order is
unspecified, the embedding fixes insertion order.
-/

/-- Python truthiness of an optional string: `None` and `""` are falsy. -/
def pyTruthy : Option String → Bool
  | none => false
  | some s => !(s == "")

/-- `v if v else d` for an optional string `v` (Python truthiness). -/
def pyOr (v : Option String) (d : String) : String :=
  match v with
  | none => d
  | some s => if s == "" then d else s

/-- `leadsWith pat cs` is true when `pat` is an initial segment of `cs`
(used for Python's `str.startswith` and for literal regex pieces). -/
def leadsWith : List Char → List Char → Bool
  | [], _ => true
  | _ :: _, [] => false
  | a :: as, b :: bs => a == b && leadsWith as bs

/-- `hasSub pat cs`: `pat` occurs as a contiguous substring of `cs`
(Python's `pat in s`). -/
def hasSub (pat : List Char) : List Char → Bool
  | [] => leadsWith pat []
  | c :: cs => leadsWith pat (c :: cs) || hasSub pat cs

/-- Python's `pat in s` on strings. -/
def pyContains (s pat : String) : Bool := hasSub pat.toList s.toList

/-- Embedding of `core_regex = re.compile(r"^core(\d\d)?$")`:
the name "core" optionally followed by exactly two digits. -/
def coreMatch (name : String) : Bool :=
  match name.toList with
  | ['c', 'o', 'r', 'e'] => true
  | ['c', 'o', 'r', 'e', a, b] => a.isDigit && b.isDigit
  | _ => false

/-- A `SeededSnap` object after `SeededSnap.__init__` has run: `branch` is
either a Python string (`some`) or Python `None` (`none`). -/
structure SeededSnap where
  name : String
  track : String
  channel : String
  branch : Option String
  is_classic : Bool
deriving DecidableEq

/-- Embedding of `SeededSnap.__init__(series, name, track, channel, branch,
is_classic)`.  The final `if` mirrors the Python condition
`not track and not branch and core_regex.match(name) or
 name in ("bare", "snapd")` with Python's `and`-over-`or` precedence. -/
def SeededSnap.make (series name : String) (track channel branch : Option String)
    (classic : Bool) : SeededSnap :=
  { name := name
    track := pyOr track "latest"
    channel := pyOr channel "stable"
    branch :=
      if (!pyTruthy track && !pyTruthy branch && coreMatch name)
          || name == "bare" || name == "snapd" then
        none
      else
        some (match branch with
          | none => "ubuntu-" ++ series
          | some b => b)
    is_classic := classic }

/-- Characters of the regex class `[a-zA-Z0-9_\-.]`. -/
def nameChar (c : Char) : Bool :=
  ('a' ≤ c && c ≤ 'z') || ('A' ≤ c && c ≤ 'Z') || c.isDigit
    || c == '_' || c == '-' || c == '.'

/-- Characters matched by the regex `\s` (the ASCII whitespace Python uses
in these inputs). -/
def pySpace (c : Char) : Bool :=
  c == ' ' || c == '\t' || c == '\n' || c == '\r' || c == '\x0b' || c == '\x0c'

/-- The named groups produced by matching the seed-line regex
`\s*(?P<name>[a-zA-Z0-9_\-.]+)(?:/(?P<classic>classic))?`
`(?:=(?P<track>...)(?:/(?P<channel>...))(?:/(?P<branch>...))?)?`.
A group that did not participate in the match is `none`. -/
structure SeedMatch where
  name : String
  classic : Bool
  track : Option String
  channel : Option String
  branch : Option String
deriving DecidableEq

/-- The `(?:=(?P<track>...)(?:/(?P<channel>...))(?:/(?P<branch>...))?)?`
tail of the seed-line regex, evaluated on what follows the name/classic
part: the group participates only when `=`, a non-empty track, `/` and a
non-empty channel are all present (the channel subgroup is mandatory
inside it), the branch subgroup is optional, and a failing group leaves
all its subgroups unset (`none`), exactly as Python's `re` does. -/
def seedRegexEqPart (rest : List Char) :
    Option String × Option String × Option String :=
  match rest with
  | '=' :: r1 =>
    let tk := r1.takeWhile nameChar
    let r2 := r1.dropWhile nameChar
    if tk.isEmpty then
      (none, none, none)
    else
      match r2 with
      | '/' :: r3 =>
        let ch := r3.takeWhile nameChar
        let r4 := r3.dropWhile nameChar
        if ch.isEmpty then
          (none, none, none)
        else
          match r4 with
          | '/' :: r5 =>
            let br := r5.takeWhile nameChar
            if br.isEmpty then
              (some ⟨tk⟩, some ⟨ch⟩, none)
            else
              (some ⟨tk⟩, some ⟨ch⟩, some ⟨br⟩)
          | _ => (some ⟨tk⟩, some ⟨ch⟩, none)
      | _ => (none, none, none)
  | _ => (none, none, none)

/-- Deterministic evaluation of `snap_regex.match(line)` on the character
list of the line.  The regex is anchored at the start only; every group
after the name is optional and the character class excludes `/` and `=`,
so greedy maximal-munch matching is exact.  The result is `none` precisely
when the whole regex fails, i.e. when no name characters follow the
leading whitespace. -/
def seedRegexMatch (cs : List Char) : Option SeedMatch :=
  let cs := cs.dropWhile pySpace
  let nm := cs.takeWhile nameChar
  if nm.isEmpty then
    none
  else
    let rest := cs.dropWhile nameChar
    let classic := leadsWith "/classic".toList rest
    let rest := if classic then rest.drop 8 else rest
    let tcb := seedRegexEqPart rest
    some ⟨⟨nm⟩, classic, tcb.1, tcb.2.1, tcb.2.2⟩

/-- Embedding of `SeededSnap.from_seed_line(series, line)`.  On a failed
match the Python code prints a warning and returns `None`; the print is
accounted for at the call site that threads output. -/
def SeededSnap.from_seed_line (series line : String) : Option SeededSnap :=
  match seedRegexMatch line.toList with
  | none => none
  | some m =>
    let branch : Option String :=
      match m.channel, m.branch with
      | some _, none => some ""
      | _, b => b
    some (SeededSnap.make series m.name m.track m.channel branch m.classic)

/-- Embedding of `SeededSnap.snap_default_channel`: the branch segment is
appended only when the branch is truthy (a non-empty string). -/
def SeededSnap.snap_default_channel (s : SeededSnap) : String :=
  s.track ++ "/" ++ s.channel ++
    (match s.branch with
     | some b => if b == "" then "" else "/" ++ b
     | none => "")

/-- Embedding of `SeededSnap.seed_format`. -/
def SeededSnap.seed_format (s : SeededSnap) : String :=
  s.name ++ (if s.is_classic then "/classic" else "") ++ "=" ++
    s.snap_default_channel

/-- Embedding of `SeededSnap.__str__`. -/
def SeededSnap.pyStr (s : SeededSnap) : String :=
  s.name ++ " (" ++ s.snap_default_channel ++ ")"

/-- Embedding of `SeededSnap.__eq__` (between two `SeededSnap`s; the
`isinstance` guard is vacuous in a typed setting): equality of the rendered
seed strings.  `__hash__` hashes the same string, so equal renderings hash
alike. -/
def pyEq (a b : SeededSnap) : Bool :=
  a.seed_format == b.seed_format

/-- One entry of a model assertion's `snaps` list:
`{name, type, default-channel, id}`.  The `id` slot can hold Python `None`
(as a freshly built entry does before the store lookup fills it in). -/
structure ModelSnapEntry where
  name : String
  type : String
  default_channel : String
  id : Option String
deriving DecidableEq

/-- A loaded model-assertion JSON document: the `grade` string and the
ordered `snaps` list are the only fields the script reads or writes. -/
structure Model where
  grade : String
  snaps : List ModelSnapEntry
deriving DecidableEq

/-- The snap-store metadata the script consumes from
`get_snap_info`'s JSON: the `channel-map` array (each entry's `type`) and
the top-level `snap-id`. -/
structure ChannelMapEntry where
  type : String
deriving DecidableEq

structure SnapInfo where
  channel_map : List ChannelMapEntry
  snap_id : String
deriving DecidableEq

/-- Python `set.add` on a set of `SeededSnap`: a no-op when an element equal
under `__eq__` (rendered-string equality) is already present, keeping the
original element; insertion order is the embedding's iteration order. -/
def pyAdd (l : List SeededSnap) (s : SeededSnap) : List SeededSnap :=
  if l.any (fun t => pyEq t s) then l else l ++ [s]

/-- Python set difference `a - b` under `SeededSnap.__eq__`. -/
def setDiff (a b : List SeededSnap) : List SeededSnap :=
  a.filter (fun s => !(b.any (fun t => pyEq s t)))

/-- Embedding of `is_in_sync_exclude_list(snap, info=None)` for a snap
already reduced to its name: when the passed-in info is `None` the function
fetches it itself; the first channel-map entry's type is consulted, and
indexing an empty channel-map raises (Python `IndexError`).  `getInfo` is
the snap-store lookup boundary (`get_snap_info`), `none` meaning the
"not found" result. -/
def is_in_sync_exclude_list (getInfo : String → Option SnapInfo)
    (name : String) (pre : Option SnapInfo) : Except String Bool :=
  let info := match pre with
    | none => getInfo name
    | some i => some i
  match info with
  | some i =>
    match i.channel_map with
    | [] => .error "IndexError: channel-map is empty"
    | e :: _ => .ok (e.type == "gadget" || e.type == "kernel")
  | none => .ok false

/-- Python `list.remove(x)`: drop the first element equal to `x`.  (The
script only ever removes the element it is currently looking at, so the
not-found `ValueError` case cannot arise and is embedded as the identity.) -/
def pyListRemove (l : List ModelSnapEntry) (x : ModelSnapEntry) :
    List ModelSnapEntry :=
  match l with
  | [] => []
  | y :: ys => if y = x then ys else y :: pyListRemove ys x

/-- The body of `remove_snaps_from_model_assertion`'s
`for snap in model["snaps"]` loop.  Python's list iterator keeps a bare
index into the live list while `remove` shifts later elements down, so the
loop is embedded as an index walk over the mutating list: after a removal
the element that slid into the removed slot is skipped.  The walk is driven
by the structural counter `fuel`, started at the initial list length:
`l.length ≤ fuel + i` is invariant (each iteration raises `i` by one and
never grows the list), so the counter runs out only once `i` is already
past the end and the loop is over (`removeLoop_fuel_irrelevant` below
certifies that any sufficient counter yields the same result). -/
def removeLoop (getInfo : String → Option SnapInfo) (snaps : List SeededSnap) :
    Nat → List ModelSnapEntry → Nat → Except String (List ModelSnapEntry)
  | 0, l, _ => .ok l
  | fuel + 1, l, i =>
    if h : i < l.length then
      let e := l.get ⟨i, h⟩
      let found := snaps.any (fun s => s.name == e.name)
      if found then
        match is_in_sync_exclude_list getInfo e.name none with
        | .error err => .error err
        | .ok true => removeLoop getInfo snaps fuel l (i + 1)
        | .ok false => removeLoop getInfo snaps fuel (pyListRemove l e) (i + 1)
      else
        removeLoop getInfo snaps fuel l (i + 1)
    else
      .ok l

/-- Embedding of `remove_snaps_from_model_assertion(model, snaps)`:
a no-op on a `None` model, otherwise the mutating loop above. -/
def remove_snaps_from_model_assertion (getInfo : String → Option SnapInfo)
    (model : Option Model) (snaps : List SeededSnap) :
    Except String (Option Model) :=
  match model with
  | none => .ok none
  | some m =>
    (removeLoop getInfo snaps m.snaps.length m.snaps 0).map
      (fun l => some { m with snaps := l })

/-- The `for snap in snaps` loop of `add_snaps_to_model_assertion`: each
snap's info is fetched, the exclusion check runs on it, an excluded snap is
skipped (`continue`), and otherwise reading `snap_info["snap-id"]` from a
`None` lookup result raises (Python `TypeError`). -/
def addLoop (getInfo : String → Option SnapInfo) (dangerous : Bool)
    (snaps : List SeededSnap) (acc : List ModelSnapEntry) :
    Except String (List ModelSnapEntry) :=
  match snaps with
  | [] => .ok acc
  | s :: rest =>
    let snap_info := getInfo s.name
    match is_in_sync_exclude_list getInfo s.name snap_info with
    | .error e => .error e
    | .ok true => addLoop getInfo dangerous rest acc
    | .ok false =>
      match snap_info with
      | none => .error "TypeError: NoneType is not subscriptable"
      | some info =>
        let entry : ModelSnapEntry :=
          { name := s.name
            type := "app"
            default_channel :=
              if dangerous then "latest/edge" else s.snap_default_channel
            id := some info.snap_id }
        addLoop getInfo dangerous rest (acc ++ [entry])

/-- Embedding of `add_snaps_to_model_assertion(model, snaps, release)`:
a no-op on a `None` model; "dangerous" is the substring test on the model's
own `grade`. -/
def add_snaps_to_model_assertion (getInfo : String → Option SnapInfo)
    (model : Option Model) (snaps : List SeededSnap) :
    Except String (Option Model) :=
  match model with
  | none => .ok none
  | some m =>
    let dangerous := pyContains m.grade "dangerous"
    (addLoop getInfo dangerous snaps m.snaps).map
      (fun l => some { m with snaps := l })

/-- The set comprehension `{s for s in snaps if not is_in_sync_exclude_list(s)}`
(the elements are already pairwise distinct under `__eq__`, so the
comprehension is a filter); an exception from the exclusion check aborts it. -/
def filterNotExcluded (getInfo : String → Option SnapInfo) :
    List SeededSnap → Except String (List SeededSnap)
  | [] => .ok []
  | s :: rest =>
    match is_in_sync_exclude_list getInfo s.name none with
    | .error e => .error e
    | .ok true => filterNotExcluded getInfo rest
    | .ok false => (filterNotExcluded getInfo rest).map (s :: ·)

/-- Python `str.split(sep)` for a one-character separator, on character
lists (so `""` splits to `[""]`, exactly as in Python). -/
def splitChar (sep : Char) : List Char → List (List Char)
  | [] => [[]]
  | c :: cs =>
    match splitChar sep cs with
    | [] => if c == sep then [[], []] else [[c]]
    | h :: t => if c == sep then [] :: h :: t else (c :: h) :: t

/-- Python `str.strip()`: leading and trailing whitespace removed. -/
def pyStrip (cs : List Char) : List Char :=
  ((cs.dropWhile pySpace).reverse.dropWhile pySpace).reverse

/-- `SEED_BASE_URL % (release, seed)`. -/
def get_seed_url (release seed : String) : String :=
  "https://ubuntu-archive-team.ubuntu.com/seeds/ubuntu." ++ release ++ "/" ++ seed

/-- Embedding of `fetch_snaps_from_seed(release, seed, seeded_snaps)`.
`seriesOf` stands for `get_series_version` (the `distro-info` subprocess
boundary) and `http` for `requests.get` keyed by URL, returning the body
text for a 200 response and `none` otherwise.  Returns the grown set and
the lines printed. -/
def fetch_snaps_from_seed (seriesOf : String → String)
    (http : String → Option String) (release seed : String)
    (seeded : List SeededSnap) : List SeededSnap × List String :=
  let series := seriesOf release
  match http (get_seed_url release seed) with
  | none => (seeded, ["Failed to fetch seed " ++ seed])
  | some text =>
    (splitChar '\n' text.toList).foldl
      (fun (acc : List SeededSnap × List String) line =>
        let ls := pyStrip line
        if leadsWith "* snap:".toList ls then
          match SeededSnap.from_seed_line series (String.mk (ls.drop 7)) with
          | some s => (pyAdd acc.1 s, acc.2)
          | none =>
            (acc.1,
             acc.2 ++ ["Failed to extract snap data from line: " ++
               String.mk (ls.drop 7)])
        else acc)
      (seeded, [])

/-- The hard-coded `implicit` table of `add_implicitly_seeded_snaps`,
in source order. -/
def implicitTable : List (String × List String) :=
  [("oracular", ["snapd", "bare", "core22", "core24"]),
   ("noble", ["snapd", "bare", "core22"]),
   ("mantic", ["snapd", "bare", "core22"])]

/-- Embedding of `add_implicitly_seeded_snaps(release, seeded_snaps)`:
`implicit[release]` raises `KeyError` for a release outside the table;
otherwise each implicit name joins the set fully defaulted. -/
def add_implicitly_seeded_snaps (seriesOf : String → String) (release : String)
    (seeded : List SeededSnap) : Except String (List SeededSnap) :=
  let series := seriesOf release
  match implicitTable.find? (fun p => p.1 == release) with
  | none => .error ("KeyError: " ++ release)
  | some (_, names) =>
    .ok (names.foldl
      (fun acc n => pyAdd acc (SeededSnap.make series n none none none false))
      seeded)

/-- Embedding of `fetch_snaps_from_model_assertion(release, model)`:
each entry's `default-channel` is decomposed by its slash count
(3 segments → track/channel/branch, 2 → track/channel with empty branch,
1 → channel only, anything else leaves all three `None`). -/
def fetch_snaps_from_model_assertion (seriesOf : String → String)
    (release : String) (m : Model) : List SeededSnap :=
  let series := seriesOf release
  m.snaps.foldl
    (fun acc snap =>
      let parts := splitChar '/' snap.default_channel.toList
      let tcb : Option String × Option String × Option String :=
        match parts with
        | [t, c, b] => (some ⟨t⟩, some ⟨c⟩, some ⟨b⟩)
        | [t, c] => (some ⟨t⟩, some ⟨c⟩, some "")
        | [c] => (none, some ⟨c⟩, none)
        | _ => (none, none, none)
      pyAdd acc (SeededSnap.make series snap.name tcb.1 tcb.2.1 tcb.2.2 false))
    []

/-- Embedding of `get_model_assertion_name(release, arch, dangerous)`:
the series version with the text after the first space and all dots
stripped, formatted into `MODEL_ASSERTION_JSON`. -/
def get_model_assertion_name (seriesOf : String → String)
    (release arch : String) (dangerous : Bool) : String :=
  let series := seriesOf release
  let series : String :=
    ⟨((splitChar ' ' series.toList).headD []).filter (fun c => !(c == '.'))⟩
  "ubuntu-classic-" ++ series ++ "-" ++ arch ++
    (if dangerous then "-dangerous" else "") ++ ".json"

/-- Embedding of `save_model_assertion(model, release, repository, arch)`
as the list of filesystem writes it performs: nothing for a `None` model,
otherwise one write whose filename's `-dangerous` suffix is decided from
the model's own `grade`. -/
def save_model_assertion (seriesOf : String → String) (model : Option Model)
    (release repository arch : String) : List (String × Model) :=
  match model with
  | none => []
  | some m =>
    let dangerous := pyContains m.grade "dangerous"
    [(repository ++ "/" ++ get_model_assertion_name seriesOf release arch dangerous,
      m)]

/-- The observable outcome of one `check_snap_seeds` run: the returned
`changed` flag, the model files written (path and content), and the lines
printed.  Prints issued inside the abstracted I/O boundaries
(`fetch_model_assertions`, `get_snap_info`) are outside the embedding. -/
structure CheckResult where
  changed : Bool
  writes : List (String × Model)
  prints : List String
deriving DecidableEq

/-- Lines 248–288 of the script: everything in `check_snap_seeds` up to and
including the mutation of both model variants, but before the
save-and-report tail.  The loaded models are passed in (the
`fetch_model_assertions` filesystem boundary).  Returns the `changed` flag,
both (possibly mutated) model variants and the printed lines; `none` stands
for the early `return False` when both models are absent. -/
def check_main (seriesOf : String → String) (http : String → Option String)
    (getInfo : String → Option SnapInfo)
    (model0 model_dangerous0 : Option Model) (release : String) :
    Except String (Option (Bool × Option Model × Option Model × List String)) := do
  let prints0 := ["Checking updates for " ++ release]
  match model0, model_dangerous0 with
  | none, none => return none
  | _, _ =>
    let seeds := ["minimal", "desktop-minimal"]
    let seedAcc := seeds.foldl
      (fun (acc : List SeededSnap × List String) seed =>
        let r := fetch_snaps_from_seed seriesOf http release seed acc.1
        (r.1, acc.2 ++ r.2))
      ([], [])
    let seeded ← add_implicitly_seeded_snaps seriesOf release seedAcc.1
    -- `model if model else model_dangerous`; the both-`None` case was
    -- returned from above, so `getD`'s default is unreachable here.
    let mBase : Model :=
      match model0 with
      | some m => m
      | none => (model_dangerous0.getD ⟨"", []⟩)
    let model_snaps := fetch_snaps_from_model_assertion seriesOf release mBase
    let added0 := setDiff seeded model_snaps
    let removed0 := setDiff model_snaps seeded
    let added ← filterNotExcluded getInfo added0
    let removed ← filterNotExcluded getInfo removed0
    let prints1 := prints0 ++ seedAcc.2
    let step1 ←
      if removed.isEmpty then
        pure (model0, model_dangerous0, prints1, false)
      else do
        let m1 ← remove_snaps_from_model_assertion getInfo model0 removed
        let md1 ← remove_snaps_from_model_assertion getInfo model_dangerous0 removed
        pure (m1, md1,
          prints1 ++
            ["Removed snaps: " ++
              String.intercalate ", " (removed.map SeededSnap.pyStr)],
          true)
    let (m1, md1, prints2, changed1) := step1
    let step2 ←
      if added.isEmpty then
        pure (m1, md1, prints2, changed1)
      else do
        let m2 ← add_snaps_to_model_assertion getInfo m1 added
        let md2 ← add_snaps_to_model_assertion getInfo md1 added
        pure (m2, md2,
          prints2 ++
            ["Added snaps: " ++
              String.intercalate ", " (added.map SeededSnap.pyStr)],
          true)
    let (m2, md2, prints3, changed) := step2
    return some (changed, m2, md2, prints3)

/-- Embedding of `check_snap_seeds(release, repository, arch, dry_run)`:
the main body followed by the lines 289–293 save-and-report tail, which is
the only place `dry_run` is consulted. -/
def check_snap_seeds (seriesOf : String → String) (http : String → Option String)
    (getInfo : String → Option SnapInfo)
    (model0 model_dangerous0 : Option Model)
    (release repository arch : String) (dry_run : Bool) :
    Except String CheckResult :=
  match check_main seriesOf http getInfo model0 model_dangerous0 release with
  | .error e => .error e
  | .ok none => .ok ⟨false, [], ["Checking updates for " ++ release]⟩
  | .ok (some (changed, m2, md2, prints)) =>
    if changed && !dry_run then
      .ok ⟨changed,
        save_model_assertion seriesOf m2 release repository arch ++
          save_model_assertion seriesOf md2 release repository arch,
        prints ++ ["Saving updated model assertion(s)"]⟩
    else
      .ok ⟨changed, [], prints⟩

/-- The metadata type the script consults: the `type` of the first
channel-map entry of a lookup result, when there is one. -/
def headChannelType (info : Option SnapInfo) : Option String :=
  match info with
  | some i => i.channel_map.head?.map ChannelMapEntry.type
  | none => none

/-- A loaded model used to witness the dry-run claim: `hello` is in the
model but in no seed, so a run removes it. -/
def c8Model : Model :=
  ⟨"signed",
    [⟨"snapd", "snapd", "latest/stable", some "i1"⟩,
     ⟨"bare", "base", "latest/stable", some "i2"⟩,
     ⟨"core22", "base", "latest/stable", some "i3"⟩,
     ⟨"hello", "app", "latest/stable", some "i4"⟩]⟩

/-- The diagnostics printed by both the dry and non-dry `c8Model` runs. -/
def c8Prints : List String :=
  ["Checking updates for noble", "Failed to fetch seed minimal",
   "Failed to fetch seed desktop-minimal",
   "Removed snaps: hello (latest/stable)"]

/-- The trailing `[/branch]` part of a canonical fragment. -/
def branchTail : Option (List Char) → List Char
  | none => []
  | some b => '/' :: b

/-- A seed fragment in the canonical form
`name[/classic]=track/channel[/branch]` (the spec's grammar for the
round-trip property), assembled from its components. -/
def canonicalFrag (name : List Char) (classic : Bool)
    (track channel : List Char) (branch : Option (List Char)) : List Char :=
  name ++ (if classic then "/classic".toList else []) ++
    '=' :: (track ++ '/' :: (channel ++ branchTail branch))

theorem pyListRemove_length_le (l : List ModelSnapEntry) (x : ModelSnapEntry) :
    (pyListRemove l x).length ≤ l.length := by
  induction l with
  | nil => simp [pyListRemove]
  | cons y ys ih =>
    simp only [pyListRemove]
    split
    · simp
    · simpa using Nat.succ_le_succ ih

theorem removeLoop_fuel_irrelevant (getInfo : String → Option SnapInfo)
    (snaps : List SeededSnap) (fuel fuel' : Nat) (l : List ModelSnapEntry)
    (i : Nat) (hf : l.length ≤ fuel + i) (hf' : l.length ≤ fuel' + i) :
    removeLoop getInfo snaps fuel l i = removeLoop getInfo snaps fuel' l i := by
  induction fuel generalizing fuel' l i with
  | zero =>
    cases fuel' with
    | zero => rfl
    | succ n =>
      simp only [removeLoop]
      rw [dif_neg (by omega)]
  | succ n ih =>
    cases fuel' with
    | zero =>
      simp only [removeLoop]
      rw [dif_neg (by omega)]
    | succ n' =>
      simp only [removeLoop]
      by_cases h : i < l.length
      · rw [dif_pos h, dif_pos h]
        have hrm := pyListRemove_length_le l (l.get ⟨i, h⟩)
        split
        · split
          · rfl
          · exact ih n' l (i + 1) (by omega) (by omega)
          · exact ih n' (pyListRemove l (l.get ⟨i, h⟩)) (i + 1)
              (by omega) (by omega)
        · exact ih n' l (i + 1) (by omega) (by omega)
      · rw [dif_neg h, dif_neg h]

/-- C1 counterexample: the claim says that when any of track/channel/branch
is explicitly given, the supplied branch is kept; but a `snapd` identity
constructed with all three supplied still has its branch forced to null. -/
theorem C1_counterexample :
    ¬ ((SeededSnap.make "24.04" "snapd" (some "t") (some "c") (some "b")
        false).branch = some "b") := by
  decide

/-- C1 (amended): the branch of a constructed snap identity is forced to
null exactly when the name is literally `bare` or `snapd` (regardless of
what was supplied), or when the name matches the core pattern and neither
track nor branch was supplied (the channel is not consulted); in every
other case the supplied branch (empty string included) is kept, defaulting
to `ubuntu-<series>` only when branch was not supplied at all. -/
theorem C1_branch_nulling (series name : String)
    (track channel branch : Option String) (classic : Bool) :
    ((SeededSnap.make series name track channel branch classic).branch = none ↔
      (name = "bare" ∨ name = "snapd" ∨
        (pyTruthy track = false ∧ pyTruthy branch = false ∧
          coreMatch name = true))) ∧
    ((SeededSnap.make series name track channel branch classic).branch ≠ none →
      (SeededSnap.make series name track channel branch classic).branch
        = some (branch.getD ("ubuntu-" ++ series))) := by
  constructor
  · simp only [SeededSnap.make]
    split
    · rename_i h
      simp only [Bool.or_eq_true, Bool.and_eq_true, beq_iff_eq,
        Bool.not_eq_true'] at h
      simp only [true_iff]
      tauto
    · rename_i h
      simp only [Bool.or_eq_true, Bool.and_eq_true, beq_iff_eq,
        Bool.not_eq_true'] at h
      push_neg at h
      simp only [reduceCtorEq, false_iff]
      tauto
  · simp only [SeededSnap.make]
    split
    · intro h
      exact absurd rfl h
    · intro _
      cases branch <;> rfl

/-- A closed consequence of `C1_branch_nulling`: a fully defaulted `core24`
identity has no branch. -/
theorem C1_branch_nulling_witness :
    (SeededSnap.make "24.04" "core24" none none none false).branch = none :=
  (C1_branch_nulling "24.04" "core24" none none none false).1.mpr
    (Or.inr (Or.inr ⟨by decide, by decide, by decide⟩))

/-- C2: evaluating `remove_snaps_from_model_assertion` at a model whose
`snaps` list holds two consecutive entries `aa`, `bb` that are both in the
removed set (nothing excluded): removing `aa` while iterating slides `bb`
into the visited slot, the iterator skips it, and `bb` survives — the
entry with a removed name remains in the model. -/
theorem C2_remove_skips_entry :
    remove_snaps_from_model_assertion (fun _ => some ⟨[⟨"app"⟩], "idX"⟩)
      (some ⟨"signed",
        [⟨"aa", "app", "latest/stable", some "i1"⟩,
         ⟨"bb", "app", "latest/stable", some "i2"⟩]⟩)
      [SeededSnap.make "24.04" "aa" none none none false,
       SeededSnap.make "24.04" "bb" none none none false]
    = .ok (some ⟨"signed",
        [⟨"bb", "app", "latest/stable", some "i2"⟩]⟩) := by
  rfl

/-- C3 counterexample: the claim says a snap whose metadata lookup returns
"not found" is silently treated as excluded and skipped, the add operation
completing without error; instead the operation does not complete — it
raises the `TypeError` of reading `snap_info["snap-id"]` from `None` (the
`None` lookup result is not treated as excluded). -/
theorem C3_counterexample :
    (add_snaps_to_model_assertion (fun _ => none) (some ⟨"signed", []⟩)
      [SeededSnap.make "24.04" "ghost" none none none false]).isOk
    = false := by
  rfl

theorem addLoop_errors_of_missing_info
    (getInfo : String → Option SnapInfo) (dangerous : Bool)
    (snaps : List SeededSnap) (acc : List ModelSnapEntry)
    (h : ∃ s ∈ snaps, getInfo s.name = none) :
    ∃ e, addLoop getInfo dangerous snaps acc = .error e := by
  induction snaps generalizing acc with
  | nil => simp at h
  | cons s rest ih =>
    simp only [addLoop]
    rcases h with ⟨t, ht, hinfo⟩
    rcases List.mem_cons.mp ht with rfl | htr
    · rw [hinfo]
      simp only [is_in_sync_exclude_list, hinfo]
      exact ⟨_, rfl⟩
    · cases hg : getInfo s.name with
      | none =>
        simp only [is_in_sync_exclude_list, hg]
        exact ⟨_, rfl⟩
      | some info =>
        rcases info with ⟨cmap, sid⟩
        cases cmap with
        | nil =>
          simp only [is_in_sync_exclude_list, hg]
          exact ⟨_, rfl⟩
        | cons c cs =>
          simp only [is_in_sync_exclude_list, hg]
          cases hb : (c.type == "gadget" || c.type == "kernel") with
          | true =>
            simp only [hb]
            exact ih acc ⟨t, htr, hinfo⟩
          | false =>
            simp only [hb]
            exact ih _ ⟨t, htr, hinfo⟩

/-- C3 (amended): when some snap in the added set has a "not found"
metadata lookup, the add operation on a present model does not treat it as
excluded and does not complete: it raises an error (either the `TypeError`
of reading the id from the missing info, or an earlier exception from
another entry). -/
theorem C3_add_fails_on_missing_info
    (getInfo : String → Option SnapInfo) (m : Model)
    (snaps : List SeededSnap)
    (h : ∃ s ∈ snaps, getInfo s.name = none) :
    ∃ e, add_snaps_to_model_assertion getInfo (some m) snaps = .error e := by
  simp only [add_snaps_to_model_assertion]
  obtain ⟨e, he⟩ :=
    addLoop_errors_of_missing_info getInfo (pyContains m.grade "dangerous")
      snaps m.snaps h
  exact ⟨e, by rw [he]; rfl⟩

/-- Witness for `C3_add_fails_on_missing_info` at a concrete input. -/
theorem C3_add_fails_on_missing_info_witness :
    ∃ e, add_snaps_to_model_assertion (fun _ => none) (some ⟨"signed", []⟩)
      [SeededSnap.make "24.04" "ghost" none none none false] = .error e :=
  C3_add_fails_on_missing_info (fun _ => none) ⟨"signed", []⟩
    [SeededSnap.make "24.04" "ghost" none none none false]
    ⟨SeededSnap.make "24.04" "ghost" none none none false,
      List.mem_singleton.mpr rfl, rfl⟩

/-- C6: `SeededSnap` equality (and hence set membership and hashing) is
exactly equality of the rendered `name[/classic]=default_channel` string;
consequently, on a seed/model pair where the snap `foo` carries channel
`stable` in the seed but `beta` in the model, the diff reports `foo` in
both the (exclusion-filtered) added and removed sets — a split, not an
update. -/
theorem C6_eq_is_rendered_string_and_split :
    (∀ a b : SeededSnap, pyEq a b = true ↔ a.seed_format = b.seed_format) ∧
    (filterNotExcluded (fun _ => some ⟨[⟨"app"⟩], "idX"⟩)
        (setDiff
          (fetch_snaps_from_seed (fun _ => "24.04")
            (fun _ => some "* snap: foo=latest/stable") "noble" "minimal" []).1
          (fetch_snaps_from_model_assertion (fun _ => "24.04") "noble"
            ⟨"signed", [⟨"foo", "app", "latest/beta", some "i0"⟩]⟩))
        = .ok [SeededSnap.make "24.04" "foo" (some "latest") (some "stable")
            (some "") false] ∧
     filterNotExcluded (fun _ => some ⟨[⟨"app"⟩], "idX"⟩)
        (setDiff
          (fetch_snaps_from_model_assertion (fun _ => "24.04") "noble"
            ⟨"signed", [⟨"foo", "app", "latest/beta", some "i0"⟩]⟩)
          (fetch_snaps_from_seed (fun _ => "24.04")
            (fun _ => some "* snap: foo=latest/stable") "noble" "minimal" []).1)
        = .ok [SeededSnap.make "24.04" "foo" (some "latest") (some "beta")
            (some "") false]) := by
  refine ⟨fun a b => ?_, rfl, rfl⟩
  simp [pyEq, beq_iff_eq]

theorem filterNotExcluded_mem (getInfo : String → Option SnapInfo)
    (l out : List SeededSnap) (h : filterNotExcluded getInfo l = .ok out)
    (s : SeededSnap) (hs : s ∈ out) :
    is_in_sync_exclude_list getInfo s.name none = .ok false := by
  induction l generalizing out with
  | nil =>
    simp only [filterNotExcluded, Except.ok.injEq] at h
    subst h
    cases hs
  | cons a rest ih =>
    unfold filterNotExcluded at h
    cases hx : is_in_sync_exclude_list getInfo a.name none with
    | error e => rw [hx] at h; cases h
    | ok b =>
      rw [hx] at h
      cases b with
      | true => exact ih out h hs
      | false =>
        cases hr : filterNotExcluded getInfo rest with
        | error e => rw [hr] at h; cases h
        | ok out' =>
          rw [hr] at h
          simp only [Except.map, Except.ok.injEq] at h
          subst h
          rcases List.mem_cons.mp hs with rfl | hs'
          · exact hx
          · exact ih out' hr hs'

/-- C7: a snap whose snap-store metadata reports first-channel-map type
`kernel` or `gadget` never appears in the exclusion-filtered added set nor
in the exclusion-filtered removed set that `check_snap_seeds` uses for its
mutations — whatever identity (track/channel/branch) it carries in either
set, since the filter consults the name only. -/
theorem C7_excluded_never_in_filtered_sets (getInfo : String → Option SnapInfo)
    (added0 removed0 added removed : List SeededSnap) (nm : String)
    (hty : headChannelType (getInfo nm) = some "kernel" ∨
      headChannelType (getInfo nm) = some "gadget")
    (ha : filterNotExcluded getInfo added0 = .ok added)
    (hr : filterNotExcluded getInfo removed0 = .ok removed) :
    (∀ s ∈ added, s.name ≠ nm) ∧ (∀ s ∈ removed, s.name ≠ nm) := by
  have hexc : is_in_sync_exclude_list getInfo nm none = .ok true := by
    cases hg : getInfo nm with
    | none => rw [hg] at hty; simp [headChannelType] at hty
    | some i =>
      rcases i with ⟨cmap, sid⟩
      cases cmap with
      | nil => rw [hg] at hty; simp [headChannelType] at hty
      | cons c cs =>
        rw [hg] at hty
        simp only [headChannelType, List.head?, Option.map_some',
          Option.some.injEq] at hty
        simp only [is_in_sync_exclude_list, hg, Except.ok.injEq]
        rcases hty with h | h <;> rw [h] <;> rfl
  constructor
  · intro s hs heq
    have := filterNotExcluded_mem getInfo added0 added ha s hs
    rw [heq, hexc] at this
    cases this
  · intro s hs heq
    have := filterNotExcluded_mem getInfo removed0 removed hr s hs
    rw [heq, hexc] at this
    cases this

/-- Witness for `C7_excluded_never_in_filtered_sets`: with `pc-kernel`
reported as a kernel and everything else an app, filtering the diff sets
drops `pc-kernel` from both sides. -/
theorem C7_excluded_never_in_filtered_sets_witness :
    (∀ s ∈ [SeededSnap.make "24.04" "subiquity" none none none false],
      s.name ≠ "pc-kernel") ∧
    (∀ s ∈ ([] : List SeededSnap), s.name ≠ "pc-kernel") :=
  C7_excluded_never_in_filtered_sets
    (fun n => if n == "pc-kernel" then some ⟨[⟨"kernel"⟩], "k1"⟩
      else some ⟨[⟨"app"⟩], "a1"⟩)
    [SeededSnap.make "24.04" "subiquity" none none none false,
     SeededSnap.make "24.04" "pc-kernel" (some "24") (some "stable") none false]
    [SeededSnap.make "24.04" "pc-kernel" (some "22") (some "beta") none false]
    [SeededSnap.make "24.04" "subiquity" none none none false] [] "pc-kernel"
    (Or.inl rfl) rfl rfl

theorem addLoop_ok_appended (getInfo : String → Option SnapInfo)
    (dangerous : Bool) (snaps : List SeededSnap)
    (acc out : List ModelSnapEntry)
    (h : addLoop getInfo dangerous snaps acc = .ok out) :
    ∃ tail, out = acc ++ tail ∧
      ∀ e ∈ tail, ∃ s, s ∈ snaps ∧ e.name = s.name ∧
        e.default_channel =
          (if dangerous then "latest/edge" else s.snap_default_channel) := by
  induction snaps generalizing acc with
  | nil =>
    simp only [addLoop, Except.ok.injEq] at h
    exact ⟨[], by simp [h], by simp⟩
  | cons s rest ih =>
    unfold addLoop at h
    cases hg : getInfo s.name with
    | none =>
      rw [hg] at h
      simp only [is_in_sync_exclude_list, hg] at h
      cases h
    | some info =>
      rcases info with ⟨cmap, sid⟩
      cases cmap with
      | nil =>
        rw [hg] at h
        simp only [is_in_sync_exclude_list, hg] at h
        cases h
      | cons c cs =>
        rw [hg] at h
        simp only [is_in_sync_exclude_list, hg] at h
        cases hb : (c.type == "gadget" || c.type == "kernel") with
        | true =>
          rw [hb] at h
          obtain ⟨tail, hout, htail⟩ := ih acc h
          exact ⟨tail, hout, fun e he =>
            let ⟨t, ht, h1, h2⟩ := htail e he
            ⟨t, List.mem_cons_of_mem s ht, h1, h2⟩⟩
        | false =>
          rw [hb] at h
          obtain ⟨tail, hout, htail⟩ := ih _ h
          refine ⟨⟨s.name, "app",
            if dangerous then "latest/edge" else s.snap_default_channel,
            some sid⟩ :: tail, by simpa [List.append_assoc] using hout,
            fun e he => ?_⟩
          rcases List.mem_cons.mp he with rfl | he'
          · exact ⟨s, List.mem_cons_self s rest, rfl, rfl⟩
          · let ⟨t, ht, h1, h2⟩ := htail e he'
            exact ⟨t, List.mem_cons_of_mem s ht, h1, h2⟩

/-- C9: a successful add on a present model appends entries after the
existing ones, and every appended entry's `default-channel` is
`latest/edge` when the model's `grade` contains the substring `dangerous`
(whatever track/channel/branch the seed identity declared), and the seed
identity's rendered channel otherwise. -/
theorem C9_dangerous_channel_override (getInfo : String → Option SnapInfo)
    (m : Model) (snaps : List SeededSnap) (m' : Model)
    (h : add_snaps_to_model_assertion getInfo (some m) snaps = .ok (some m')) :
    m'.grade = m.grade ∧ ∃ tail, m'.snaps = m.snaps ++ tail ∧
      ∀ e ∈ tail, ∃ s, s ∈ snaps ∧ e.name = s.name ∧
        e.default_channel =
          (if pyContains m.grade "dangerous" then "latest/edge"
           else s.snap_default_channel) := by
  simp only [add_snaps_to_model_assertion] at h
  cases ha : addLoop getInfo (pyContains m.grade "dangerous") snaps m.snaps with
  | error e => rw [ha] at h; cases h
  | ok l =>
    rw [ha] at h
    simp only [Except.map, Except.ok.injEq, Option.some.injEq] at h
    obtain ⟨tail, hout, htail⟩ :=
      addLoop_ok_appended getInfo (pyContains m.grade "dangerous") snaps
        m.snaps l ha
    subst h
    exact ⟨rfl, tail, hout, htail⟩

/-- Witness for `C9_dangerous_channel_override`: adding `foo` declared at
`tr/ch/br` to an empty dangerous-grade model yields one entry at
`latest/edge`. -/
theorem C9_dangerous_channel_override_witness :
    (Model.mk "dangerous"
        [ModelSnapEntry.mk "foo" "app" "latest/edge" (some "idX")]).grade
      = (Model.mk "dangerous" []).grade ∧
    ∃ tail,
      (Model.mk "dangerous"
        [ModelSnapEntry.mk "foo" "app" "latest/edge" (some "idX")]).snaps
        = (Model.mk "dangerous" []).snaps ++ tail ∧
      ∀ e ∈ tail, ∃ s,
        s ∈ [SeededSnap.make "24.04" "foo" (some "tr") (some "ch") (some "br")
          false] ∧ e.name = s.name ∧
        e.default_channel =
          (if pyContains (Model.mk "dangerous" []).grade "dangerous" then
            "latest/edge" else s.snap_default_channel) :=
  C9_dangerous_channel_override (fun _ => some ⟨[⟨"app"⟩], "idX"⟩)
    (Model.mk "dangerous" [])
    [SeededSnap.make "24.04" "foo" (some "tr") (some "ch") (some "br") false]
    (Model.mk "dangerous"
      [ModelSnapEntry.mk "foo" "app" "latest/edge" (some "idX")]) rfl

/-- C10: for a release outside the hard-coded implicit-snap table
(`oracular`, `noble`, `mantic`), once at least one model variant loaded,
the per-release check run fails with the unguarded dictionary lookup's
`KeyError` instead of completing. -/
theorem C10_keyerror_outside_table (seriesOf : String → String)
    (http : String → Option String) (getInfo : String → Option SnapInfo)
    (model0 md0 : Option Model) (release repository arch : String)
    (dry : Bool)
    (hrel : release ≠ "oracular" ∧ release ≠ "noble" ∧ release ≠ "mantic")
    (hm : model0 ≠ none ∨ md0 ≠ none) :
    check_snap_seeds seriesOf http getInfo model0 md0 release repository arch
      dry = .error ("KeyError: " ++ release) := by
  obtain ⟨h1, h2, h3⟩ := hrel
  have e1 : ("oracular" == release) = false := beq_eq_false_iff_ne.mpr (Ne.symm h1)
  have e2 : ("noble" == release) = false := beq_eq_false_iff_ne.mpr (Ne.symm h2)
  have e3 : ("mantic" == release) = false := beq_eq_false_iff_ne.mpr (Ne.symm h3)
  have hfind : implicitTable.find? (fun p => p.1 == release) = none := by
    simp [implicitTable, List.find?, e1, e2, e3]
  have hmain : check_main seriesOf http getInfo model0 md0 release
      = .error ("KeyError: " ++ release) := by
    cases model0 with
    | none =>
      cases md0 with
      | none => rcases hm with h | h <;> exact absurd rfl h
      | some m =>
        simp only [check_main, add_implicitly_seeded_snaps, hfind]
        rfl
    | some m =>
      cases md0 <;>
        · simp only [check_main, add_implicitly_seeded_snaps, hfind]
          rfl
  simp only [check_snap_seeds, hmain]

/-- Witness for `C10_keyerror_outside_table`: the release `plucky` with a
loaded (empty) model errors out. -/
theorem C10_keyerror_outside_table_witness :
    check_snap_seeds (fun _ => "25.04") (fun _ => none)
      (fun _ => some ⟨[⟨"app"⟩], "idX"⟩) (some ⟨"signed", []⟩) none "plucky"
      "." "amd64" false = .error ("KeyError: " ++ "plucky") :=
  C10_keyerror_outside_table (fun _ => "25.04") (fun _ => none)
    (fun _ => some ⟨[⟨"app"⟩], "idX"⟩) (some ⟨"signed", []⟩) none "plucky"
    "." "amd64" false
    ⟨by decide, by decide, by decide⟩ (Or.inl (by simp))

/-- C8: on any inputs, when the non-dry run would write model files, the
dry run writes nothing, still returns `changed = true`, and prints exactly
the same diagnostics (the non-dry run only adds the final save notice). -/
theorem C8_dry_run_suppresses_writes_only (seriesOf : String → String)
    (http : String → Option String) (getInfo : String → Option SnapInfo)
    (model0 md0 : Option Model) (release repository arch : String)
    (r_wet r_dry : CheckResult)
    (hwet : check_snap_seeds seriesOf http getInfo model0 md0 release
      repository arch false = .ok r_wet)
    (hdry : check_snap_seeds seriesOf http getInfo model0 md0 release
      repository arch true = .ok r_dry)
    (hw : r_wet.writes ≠ []) :
    r_dry.writes = [] ∧ r_dry.changed = true ∧
      r_wet.prints = r_dry.prints ++ ["Saving updated model assertion(s)"] := by
  unfold check_snap_seeds at hwet hdry
  cases hmain : check_main seriesOf http getInfo model0 md0 release with
  | error e => rw [hmain] at hwet; cases hwet
  | ok o =>
    rw [hmain] at hwet hdry
    cases o with
    | none =>
      simp only [Except.ok.injEq] at hwet
      rw [← hwet] at hw
      exact absurd rfl hw
    | some t =>
      obtain ⟨changed, m2, md2, prints⟩ := t
      cases changed with
      | false =>
        simp only [Bool.false_and, Bool.and_self, if_false,
          Bool.false_eq_true, Except.ok.injEq] at hwet
        subst hwet
        exact absurd rfl hw
      | true =>
        simp only [Bool.not_false, Bool.not_true, Bool.and_true,
          Bool.and_false, if_true, if_false, Bool.true_eq_false,
          Bool.false_eq_true, Except.ok.injEq, reduceIte] at hwet hdry
        subst hwet
        subst hdry
        exact ⟨rfl, rfl, rfl⟩

/-- Witness for `C8_dry_run_suppresses_writes_only`: the `c8Model` scenario
(both seed fetches fail, the implicit snaps are present in the model,
`hello` gets removed) writes one file when not dry and none when dry. -/
theorem C8_dry_run_suppresses_writes_only_witness :
    (CheckResult.mk true [] c8Prints).writes = [] ∧
    (CheckResult.mk true [] c8Prints).changed = true ∧
    (CheckResult.mk true
      [("./ubuntu-classic-2404-amd64.json",
        ⟨"signed",
          [⟨"snapd", "snapd", "latest/stable", some "i1"⟩,
           ⟨"bare", "base", "latest/stable", some "i2"⟩,
           ⟨"core22", "base", "latest/stable", some "i3"⟩]⟩)]
      (c8Prints ++ ["Saving updated model assertion(s)"])).prints
      = (CheckResult.mk true [] c8Prints).prints ++
          ["Saving updated model assertion(s)"] :=
  C8_dry_run_suppresses_writes_only (fun _ => "24.04") (fun _ => none)
    (fun _ => some ⟨[⟨"app"⟩], "idX"⟩) (some c8Model) none "noble" "." "amd64"
    (CheckResult.mk true
      [("./ubuntu-classic-2404-amd64.json",
        ⟨"signed",
          [⟨"snapd", "snapd", "latest/stable", some "i1"⟩,
           ⟨"bare", "base", "latest/stable", some "i2"⟩,
           ⟨"core22", "base", "latest/stable", some "i3"⟩]⟩)]
      (c8Prints ++ ["Saving updated model assertion(s)"]))
    (CheckResult.mk true [] c8Prints) rfl rfl (by simp)

theorem nameChar_not_space (c : Char) (h : nameChar c = true) :
    pySpace c = false := by
  cases hs : pySpace c with
  | false => rfl
  | true =>
    exfalso
    have : c = ' ' ∨ c = '\t' ∨ c = '\n' ∨ c = '\r' ∨ c = '\x0b' ∨
        c = '\x0c' := by
      simpa [pySpace, beq_iff_eq, or_assoc] using hs
    rcases this with rfl | rfl | rfl | rfl | rfl | rfl <;>
      exact absurd h (by decide)

theorem takeWhile_append_all (p : Char → Bool) (xs ys : List Char)
    (h : ∀ c ∈ xs, p c = true)
    (hy : ∀ y, ys.head? = some y → p y = false) :
    (xs ++ ys).takeWhile p = xs := by
  induction xs with
  | nil =>
    simp only [List.nil_append]
    cases ys with
    | nil => rfl
    | cons y t => simp [List.takeWhile_cons, hy y rfl]
  | cons x xt ih =>
    simp only [List.cons_append, List.takeWhile_cons,
      h x (List.mem_cons_self x xt), if_true]
    simp only [List.cons.injEq, true_and]
    exact ih (fun c hc => h c (List.mem_cons_of_mem x hc))

theorem dropWhile_append_all (p : Char → Bool) (xs ys : List Char)
    (h : ∀ c ∈ xs, p c = true)
    (hy : ∀ y, ys.head? = some y → p y = false) :
    (xs ++ ys).dropWhile p = ys := by
  induction xs with
  | nil =>
    simp only [List.nil_append]
    cases ys with
    | nil => rfl
    | cons y t => simp [List.dropWhile_cons, hy y rfl]
  | cons x xt ih =>
    simp only [List.cons_append, List.dropWhile_cons,
      h x (List.mem_cons_self x xt), if_true]
    exact ih (fun c hc => h c (List.mem_cons_of_mem x hc))

theorem leadsWith_append_self (pat r : List Char) :
    leadsWith pat (pat ++ r) = true := by
  induction pat with
  | nil => rfl
  | cons a t ih =>
    simp only [List.cons_append, leadsWith, beq_self_eq_true, Bool.true_and]
    exact ih

theorem seedRegexEqPart_canonical (track channel : List Char)
    (branch : Option (List Char))
    (ht : track ≠ []) (htc : ∀ c ∈ track, nameChar c = true)
    (hc : channel ≠ []) (hcc : ∀ c ∈ channel, nameChar c = true)
    (hb : ∀ b, branch = some b → b ≠ [] ∧ ∀ c ∈ b, nameChar c = true) :
    seedRegexEqPart ('=' :: (track ++ '/' :: (channel ++ branchTail branch)))
      = (some ⟨track⟩, some ⟨channel⟩, branch.map (fun b => ⟨b⟩)) := by
  obtain ⟨t0, tt, rfl⟩ := List.exists_cons_of_ne_nil ht
  obtain ⟨c0, ct, rfl⟩ := List.exists_cons_of_ne_nil hc
  have htk := takeWhile_append_all nameChar (t0 :: tt)
    ('/' :: ((c0 :: ct) ++ branchTail branch)) htc
    (by intro y hy; simp only [List.head?, Option.some.injEq] at hy;
        subst hy; decide)
  have htd := dropWhile_append_all nameChar (t0 :: tt)
    ('/' :: ((c0 :: ct) ++ branchTail branch)) htc
    (by intro y hy; simp only [List.head?, Option.some.injEq] at hy;
        subst hy; decide)
  cases branch with
  | none =>
    have hck : List.takeWhile nameChar (c0 :: ct) = c0 :: ct := by
      have := takeWhile_append_all nameChar (c0 :: ct) [] hcc
        (by intro y hy; exact absurd hy (by simp))
      simpa using this
    have hcd : List.dropWhile nameChar (c0 :: ct) = [] := by
      have := dropWhile_append_all nameChar (c0 :: ct) [] hcc
        (by intro y hy; exact absurd hy (by simp))
      simpa using this
    simp only [seedRegexEqPart]
    rw [htk, htd]
    simp only [List.isEmpty_cons, Bool.false_eq_true, if_false, branchTail,
      List.append_nil]
    rw [hck, hcd]
    simp only [List.isEmpty_cons, Bool.false_eq_true, if_false]
    rfl
  | some b =>
    obtain ⟨hbne, hbc⟩ := hb b rfl
    obtain ⟨b0, bt, rfl⟩ := List.exists_cons_of_ne_nil hbne
    have hck := takeWhile_append_all nameChar (c0 :: ct)
      ('/' :: (b0 :: bt)) hcc
      (by intro y hy; simp only [List.head?, Option.some.injEq] at hy;
          subst hy; decide)
    have hcd := dropWhile_append_all nameChar (c0 :: ct)
      ('/' :: (b0 :: bt)) hcc
      (by intro y hy; simp only [List.head?, Option.some.injEq] at hy;
          subst hy; decide)
    have hbk : List.takeWhile nameChar (b0 :: bt) = b0 :: bt := by
      have := takeWhile_append_all nameChar (b0 :: bt) [] hbc
        (by intro y hy; exact absurd hy (by simp))
      simpa using this
    simp only [seedRegexEqPart]
    rw [htk, htd]
    simp only [List.isEmpty_cons, Bool.false_eq_true, if_false, branchTail]
    rw [hck, hcd]
    simp only [List.isEmpty_cons, Bool.false_eq_true, if_false]
    rw [hbk]
    simp only [List.isEmpty_cons, Bool.false_eq_true, if_false]
    rfl

theorem seedRegexMatch_canonical (name track channel : List Char)
    (branch : Option (List Char)) (classic : Bool)
    (hn : name ≠ []) (hnc : ∀ c ∈ name, nameChar c = true)
    (ht : track ≠ []) (htc : ∀ c ∈ track, nameChar c = true)
    (hc : channel ≠ []) (hcc : ∀ c ∈ channel, nameChar c = true)
    (hb : ∀ b, branch = some b → b ≠ [] ∧ ∀ c ∈ b, nameChar c = true) :
    seedRegexMatch (canonicalFrag name classic track channel branch)
      = some ⟨⟨name⟩, classic, some ⟨track⟩, some ⟨channel⟩,
          branch.map (fun b => ⟨b⟩)⟩ := by
  obtain ⟨n0, nt, rfl⟩ := List.exists_cons_of_ne_nil hn
  have heq := seedRegexEqPart_canonical track channel branch ht htc hc hcc hb
  have hsp : pySpace n0 = false :=
    nameChar_not_space n0 (hnc n0 (List.mem_cons_self n0 nt))
  cases classic with
  | false =>
    have hY : canonicalFrag (n0 :: nt) false track channel branch
        = n0 :: (nt ++
            '=' :: (track ++ '/' :: (channel ++ branchTail branch))) := by
      simp [canonicalFrag]
    have htk : List.takeWhile nameChar (n0 :: (nt ++
        '=' :: (track ++ '/' :: (channel ++ branchTail branch))))
        = n0 :: nt := by
      have := takeWhile_append_all nameChar (n0 :: nt)
        ('=' :: (track ++ '/' :: (channel ++ branchTail branch))) hnc
        (by intro y hy; simp only [List.head?, Option.some.injEq] at hy;
            subst hy; decide)
      simpa [List.cons_append] using this
    have htd : List.dropWhile nameChar (n0 :: (nt ++
        '=' :: (track ++ '/' :: (channel ++ branchTail branch))))
        = '=' :: (track ++ '/' :: (channel ++ branchTail branch)) := by
      have := dropWhile_append_all nameChar (n0 :: nt)
        ('=' :: (track ++ '/' :: (channel ++ branchTail branch))) hnc
        (by intro y hy; simp only [List.head?, Option.some.injEq] at hy;
            subst hy; decide)
      simpa [List.cons_append] using this
    have hdw : List.dropWhile pySpace (n0 :: (nt ++
        '=' :: (track ++ '/' :: (channel ++ branchTail branch))))
        = n0 :: (nt ++
            '=' :: (track ++ '/' :: (channel ++ branchTail branch))) := by
      simp [List.dropWhile_cons, hsp]
    have hlw : leadsWith "/classic".toList
        ('=' :: (track ++ '/' :: (channel ++ branchTail branch))) = false :=
      rfl
    rw [hY]
    simp only [seedRegexMatch]
    rw [hdw, htk, htd]
    simp only [List.isEmpty_cons, Bool.false_eq_true, if_false, hlw]
    rw [heq]
  | true =>
    have hY : canonicalFrag (n0 :: nt) true track channel branch
        = n0 :: (nt ++ '/' :: 'c' :: 'l' :: 'a' :: 's' :: 's' :: 'i' :: 'c' ::
            '=' :: (track ++ '/' :: (channel ++ branchTail branch))) := by
      simp [canonicalFrag, show "/classic".toList
        = ['/', 'c', 'l', 'a', 's', 's', 'i', 'c'] from rfl]
    have htk : List.takeWhile nameChar (n0 :: (nt ++
        '/' :: 'c' :: 'l' :: 'a' :: 's' :: 's' :: 'i' :: 'c' ::
          '=' :: (track ++ '/' :: (channel ++ branchTail branch))))
        = n0 :: nt := by
      have := takeWhile_append_all nameChar (n0 :: nt)
        ('/' :: 'c' :: 'l' :: 'a' :: 's' :: 's' :: 'i' :: 'c' ::
          '=' :: (track ++ '/' :: (channel ++ branchTail branch))) hnc
        (by intro y hy; simp only [List.head?, Option.some.injEq] at hy;
            subst hy; decide)
      simpa [List.cons_append] using this
    have htd : List.dropWhile nameChar (n0 :: (nt ++
        '/' :: 'c' :: 'l' :: 'a' :: 's' :: 's' :: 'i' :: 'c' ::
          '=' :: (track ++ '/' :: (channel ++ branchTail branch))))
        = '/' :: 'c' :: 'l' :: 'a' :: 's' :: 's' :: 'i' :: 'c' ::
            '=' :: (track ++ '/' :: (channel ++ branchTail branch)) := by
      have := dropWhile_append_all nameChar (n0 :: nt)
        ('/' :: 'c' :: 'l' :: 'a' :: 's' :: 's' :: 'i' :: 'c' ::
          '=' :: (track ++ '/' :: (channel ++ branchTail branch))) hnc
        (by intro y hy; simp only [List.head?, Option.some.injEq] at hy;
            subst hy; decide)
      simpa [List.cons_append] using this
    have hdw : List.dropWhile pySpace (n0 :: (nt ++
        '/' :: 'c' :: 'l' :: 'a' :: 's' :: 's' :: 'i' :: 'c' ::
          '=' :: (track ++ '/' :: (channel ++ branchTail branch))))
        = n0 :: (nt ++
            '/' :: 'c' :: 'l' :: 'a' :: 's' :: 's' :: 'i' :: 'c' ::
              '=' :: (track ++ '/' :: (channel ++ branchTail branch))) := by
      simp [List.dropWhile_cons, hsp]
    have hlw : leadsWith "/classic".toList
        ('/' :: 'c' :: 'l' :: 'a' :: 's' :: 's' :: 'i' :: 'c' ::
          '=' :: (track ++ '/' :: (channel ++ branchTail branch))) = true := by
      have := leadsWith_append_self
        ['/', 'c', 'l', 'a', 's', 's', 'i', 'c']
        ('=' :: (track ++ '/' :: (channel ++ branchTail branch)))
      simpa [List.cons_append] using this
    have hdrop : List.drop 8
        ('/' :: 'c' :: 'l' :: 'a' :: 's' :: 's' :: 'i' :: 'c' ::
          '=' :: (track ++ '/' :: (channel ++ branchTail branch)))
        = '=' :: (track ++ '/' :: (channel ++ branchTail branch)) := rfl
    rw [hY]
    simp only [seedRegexMatch]
    rw [hdw, htk, htd]
    simp only [List.isEmpty_cons, Bool.false_eq_true, if_false, hlw, if_true,
      hdrop]
    rw [heq]

theorem stringMk_beq_empty (a : List Char) (h : a ≠ []) :
    ((⟨a⟩ : String) == "") = false := by
  rw [beq_eq_false_iff_ne]
  intro hh
  have hh' : a = [] := congrArg String.data hh
  exact h hh'

theorem seed_format_mk (name track channel : List Char) (classic : Bool)
    (brf : Option String) (hbr : brf = none ∨ brf = some "") :
    SeededSnap.seed_format ⟨⟨name⟩, ⟨track⟩, ⟨channel⟩, brf, classic⟩
      = ⟨canonicalFrag name classic track channel none⟩ := by
  apply String.ext
  rcases hbr with rfl | rfl <;> cases classic <;>
    simp [SeededSnap.seed_format, SeededSnap.snap_default_channel,
      canonicalFrag, branchTail, String.data_append,
      show ("" : String).data = [] from rfl,
      show ("=" : String).data = ['='] from rfl,
      show ("/" : String).data = ['/'] from rfl,
      show ("/classic" : String).data = ['/','c','l','a','s','s','i','c']
        from rfl,
      List.append_assoc]

theorem seed_format_mk_branch (name track channel b : List Char)
    (classic : Bool) (hbne : b ≠ []) :
    SeededSnap.seed_format ⟨⟨name⟩, ⟨track⟩, ⟨channel⟩, some ⟨b⟩, classic⟩
      = ⟨canonicalFrag name classic track channel (some b)⟩ := by
  have hbeq := stringMk_beq_empty b hbne
  apply String.ext
  cases classic <;>
    simp [SeededSnap.seed_format, SeededSnap.snap_default_channel,
      canonicalFrag, branchTail, hbeq, String.data_append,
      show ("" : String).data = [] from rfl,
      show ("=" : String).data = ['='] from rfl,
      show ("/" : String).data = ['/'] from rfl,
      show ("/classic" : String).data = ['/','c','l','a','s','s','i','c']
        from rfl,
      List.append_assoc]

/-- C4 counterexample: `snapd=latest/stable/b1` is a fragment in the
canonical form `name=track/channel/branch`, yet parse-then-render drops its
branch segment instead of returning the fragment unchanged. -/
theorem C4_counterexample :
    ("snapd=latest/stable/b1" : String)
        = (⟨canonicalFrag "snapd".toList false "latest".toList "stable".toList
            (some "b1".toList)⟩ : String) ∧
    ¬ ((SeededSnap.from_seed_line "24.04" "snapd=latest/stable/b1").map
        SeededSnap.seed_format = some "snapd=latest/stable/b1") :=
  ⟨by decide, by decide⟩

/-- C4 (amended): parsing a fragment in the canonical form
`name[/classic]=track/channel[/branch]` and rendering the parsed identity
yields the same string back, except when the name is literally `bare` or
`snapd` and an explicit branch segment is present (the unconditional
branch-nulling of `__init__` then drops the branch segment). -/
theorem C4_roundtrip_canonical (series : String)
    (name track channel : List Char) (branch : Option (List Char))
    (classic : Bool)
    (hn : name ≠ []) (hnc : ∀ c ∈ name, nameChar c = true)
    (ht : track ≠ []) (htc : ∀ c ∈ track, nameChar c = true)
    (hc : channel ≠ []) (hcc : ∀ c ∈ channel, nameChar c = true)
    (hb : ∀ b, branch = some b → b ≠ [] ∧ ∀ c ∈ b, nameChar c = true)
    (hexc : (String.mk name = "bare" ∨ String.mk name = "snapd") →
      branch = none) :
    (SeededSnap.from_seed_line series
        ⟨canonicalFrag name classic track channel branch⟩).map
      SeededSnap.seed_format
      = some ⟨canonicalFrag name classic track channel branch⟩ := by
  have hparse := seedRegexMatch_canonical name track channel branch classic
    hn hnc ht htc hc hcc hb
  have hTne : ((⟨track⟩ : String) == "") = false := stringMk_beq_empty track ht
  have hCne : ((⟨channel⟩ : String) == "") = false :=
    stringMk_beq_empty channel hc
  simp only [SeededSnap.from_seed_line]
  rw [show (⟨canonicalFrag name classic track channel branch⟩ : String).toList
      = canonicalFrag name classic track channel branch from rfl]
  rw [hparse]
  cases branch with
  | none =>
    simp only [Option.map_some', Option.map_none']
    refine congrArg some ?_
    show (SeededSnap.make series ⟨name⟩ (some ⟨track⟩) (some ⟨channel⟩)
        (some "") classic).seed_format
      = ⟨canonicalFrag name classic track channel none⟩
    simp only [SeededSnap.make, pyOr, pyTruthy, hTne, hCne,
      Bool.false_eq_true, if_false]
    split
    · exact seed_format_mk name track channel classic none (Or.inl rfl)
    · exact seed_format_mk name track channel classic (some "") (Or.inr rfl)
  | some b =>
    have h1 : ((⟨name⟩ : String) == "bare") = false := by
      rw [beq_eq_false_iff_ne]
      intro hh
      exact absurd (hexc (Or.inl hh)) (by simp)
    have h2 : ((⟨name⟩ : String) == "snapd") = false := by
      rw [beq_eq_false_iff_ne]
      intro hh
      exact absurd (hexc (Or.inr hh)) (by simp)
    simp only [Option.map_some']
    refine congrArg some ?_
    show (SeededSnap.make series ⟨name⟩ (some ⟨track⟩) (some ⟨channel⟩)
        (some ⟨b⟩) classic).seed_format
      = ⟨canonicalFrag name classic track channel (some b)⟩
    simp only [SeededSnap.make, pyOr, pyTruthy, hTne, hCne, h1, h2,
      Bool.not_false, Bool.not_true, Bool.false_and, Bool.false_or,
      Bool.or_self, Bool.false_eq_true, if_false]
    exact seed_format_mk_branch name track channel b classic (hb b rfl).1

/-- Witness for `C4_roundtrip_canonical` at the canonical fragment
`firefox/classic=latest/stable/ubuntu-24.04`. -/
theorem C4_roundtrip_canonical_witness :
    (SeededSnap.from_seed_line "24.04"
        ⟨canonicalFrag "firefox".toList true "latest".toList "stable".toList
          (some "ubuntu-24.04".toList)⟩).map SeededSnap.seed_format
      = some ⟨canonicalFrag "firefox".toList true "latest".toList
          "stable".toList (some "ubuntu-24.04".toList)⟩ :=
  C4_roundtrip_canonical "24.04" "firefox".toList "latest".toList
    "stable".toList (some "ubuntu-24.04".toList) true
    (by decide) (by decide) (by decide) (by decide) (by decide) (by decide)
    (by intro b hb; cases hb; exact ⟨by decide, by decide⟩)
    (by intro h; rcases h with h | h <;> exact absurd h (by decide))

/-- C5 counterexample: the fragment `snapd=latest/stable` has track and
channel but no branch, yet the resulting identity's branch is null
(`None`), not the empty string. -/
theorem C5_counterexample :
    ¬ ((SeededSnap.from_seed_line "24.04" "snapd=latest/stable").map
        SeededSnap.branch = some (some "")) := by
  decide

/-- C5 (amended): a canonical fragment with track and channel present and
no branch segment parses to an identity whose branch is exactly the empty
string (not the series default), except for the names `bare` and `snapd`
whose branch is unconditionally forced to null. -/
theorem C5_branch_empty_canonical (series : String)
    (name track channel : List Char) (classic : Bool)
    (hn : name ≠ []) (hnc : ∀ c ∈ name, nameChar c = true)
    (ht : track ≠ []) (htc : ∀ c ∈ track, nameChar c = true)
    (hc : channel ≠ []) (hcc : ∀ c ∈ channel, nameChar c = true)
    (hb1 : String.mk name ≠ "bare") (hb2 : String.mk name ≠ "snapd") :
    (SeededSnap.from_seed_line series
        ⟨canonicalFrag name classic track channel none⟩).map
      SeededSnap.branch = some (some "") := by
  have hparse := seedRegexMatch_canonical name track channel none classic
    hn hnc ht htc hc hcc (by intro b hb; cases hb)
  have hTne : ((⟨track⟩ : String) == "") = false := stringMk_beq_empty track ht
  have h1 : ((⟨name⟩ : String) == "bare") = false :=
    beq_eq_false_iff_ne.mpr hb1
  have h2 : ((⟨name⟩ : String) == "snapd") = false :=
    beq_eq_false_iff_ne.mpr hb2
  simp only [SeededSnap.from_seed_line]
  rw [show (⟨canonicalFrag name classic track channel none⟩ : String).toList
      = canonicalFrag name classic track channel none from rfl]
  rw [hparse]
  simp only [Option.map_some', Option.map_none']
  refine congrArg some ?_
  show (SeededSnap.make series ⟨name⟩ (some ⟨track⟩) (some ⟨channel⟩)
      (some "") classic).branch = some ""
  simp only [SeededSnap.make, pyTruthy, hTne, h1, h2, Bool.not_false,
    Bool.not_true, Bool.false_and, Bool.false_or, Bool.or_self,
    Bool.false_eq_true, if_false]

/-- Witness for `C5_branch_empty_canonical` at `firefox=latest/stable`. -/
theorem C5_branch_empty_canonical_witness :
    (SeededSnap.from_seed_line "24.04"
        ⟨canonicalFrag "firefox".toList false "latest".toList
          "stable".toList none⟩).map
      SeededSnap.branch = some (some "") :=
  C5_branch_empty_canonical "24.04" "firefox".toList "latest".toList
    "stable".toList false
    (by decide) (by decide) (by decide) (by decide) (by decide) (by decide)
    (by decide) (by decide)
